import Mathlib

/-!
Verification of the checkpoint-status propagation and live-telemetry engine of
the sport-monitor cloud functions.

Part 1 models `src/functions/checkpoints/change_competitor_status.py`: a
competitor's checkpoint records live in one Firestore subcollection; the
handler validates the request, updates the target checkpoint, and then runs
two best-effort cascade passes over the sibling documents.  The embedding
covers the handler from the `orderCheckpoint` validation onward; the HTTP,
CORS, JSON-parsing and bearer-token layers in front of it only decide whether
this core is reached and are not modelled.  Firestore documents are modelled
as (id, optional field map) pairs: `data = none` models `to_dict()` returning
`None`, and each `Option` field models presence/absence (a field updated to
Python `None` and an absent field are both `none`, matching every read the
handler performs via `.get`).  `datetime.utcnow()` is passed in as the `now`
parameter.

Part 2 models `is_competitor_visible` from
`src/functions/checkpoints/competitor_tracking.py` (a pure function).

Part 3 models `src/functions/tracking/track_competitor_position.py`: the
timestamp codec `_time_stamp_to_id` (including a faithful model of CPython's
`datetime.strptime` matching semantics for the fixed format
`"%d/%m/%Y %H:%M:%S"` and of `datetime.timestamp()` for an aware UTC datetime)
and the bounded position-history store with its sort-and-drop eviction.
-/

/-! ### Status constants (change_competitor_status.py lines 13-24) -/

def OUT_STATUSES : List String := ["out", "outStart", "outLast"]

def VALID_STATUSES : List String :=
  ["none", "noneStart", "noneLast", "check", "checkStart", "checkLast",
   "out", "outStart", "outLast"]

/-! ### Checkpoint record model -/

/-- The fields of one competitor-checkpoint document that the handler reads or
writes.  Every field is optional: an absent key and a key stored as Python
`None`/Firestore null are both `none`. -/
structure CPData where
  order : Option Int
  statusCompetitor : Option String
  checkpointDisable : Option String
  checkpointDisableName : Option String
  passTime : Option Nat
  updatedAt : Option Nat
  note : Option String
deriving DecidableEq, Repr

/-- One document of the competitor's `checkpoints` subcollection:
its document id and its field map (`none` models `to_dict()` = `None`). -/
structure CPDoc where
  id : String
  data : Option CPData
deriving DecidableEq, Repr

def emptyCPData : CPData :=
  { order := none, statusCompetitor := none, checkpointDisable := none,
    checkpointDisableName := none, passTime := none, updatedAt := none, note := none }

/-- The `update_data` write of step 1 (lines 356-380), applied with Firestore
`update` merge semantics to the target document's fields. -/
def applyTargetUpdate (old : Option CPData) (checkpointId checkpointName status : String)
    (note : Option String) (now : Nat) : CPData :=
  let b := old.getD emptyCPData
  { b with
    statusCompetitor := some status
    passTime := some now
    updatedAt := some now
    checkpointDisable := if status ∈ OUT_STATUSES then some checkpointId else none
    checkpointDisableName := if status ∈ OUT_STATUSES then some checkpointName else none
    note := match note with | some n => some n | none => b.note }

/-- The `clear_data` write of the reinstatement pass (lines 403-409). -/
def applyClearUpdate (old : CPData) (now : Nat) : CPData :=
  { old with
    statusCompetitor := some "none"
    checkpointDisable := none
    checkpointDisableName := none
    updatedAt := some now }

/-- The `update_all_data` write of the disqualification pass (lines 446-455). -/
def applyOutUpdate (old : CPData) (checkpointId checkpointName status : String)
    (note : Option String) (now : Nat) : CPData :=
  { old with
    statusCompetitor := some status
    checkpointDisable := some checkpointId
    checkpointDisableName := some checkpointName
    updatedAt := some now
    note := match note with | some n => some n | none => old.note }

/-- Both cascade passes update a streamed document exactly when `to_dict()` is
not `None`, the `order` field is present, and `order > order_checkpoint`
(lines 396-402 and 439-445). -/
def cascadeEligible (d : CPDoc) (orderCheckpoint : Int) : Bool :=
  match d.data with
  | none => false
  | some dta =>
    match dta.order with
    | none => false
    | some o => decide (orderCheckpoint < o)

def clearDoc (d : CPDoc) (now : Nat) : CPDoc :=
  { d with data := d.data.map (fun dta => applyClearUpdate dta now) }

def outDoc (d : CPDoc) (checkpointId checkpointName status : String)
    (note : Option String) (now : Nat) : CPDoc :=
  { d with data := d.data.map (fun dta => applyOutUpdate dta checkpointId checkpointName status note now) }

/-- Step 1: the write to the target checkpoint document (line 380).  The
document ids of a Firestore collection are unique, so updating every document
whose id equals `checkpointId` is the per-document write. -/
def targetPass (cps : List CPDoc) (checkpointId checkpointName status : String)
    (note : Option String) (now : Nat) : List CPDoc :=
  cps.map fun d =>
    if d.id == checkpointId
    then { d with data := some (applyTargetUpdate d.data checkpointId checkpointName status note now) }
    else d

/-- Step 2, fault-free: clear every higher-order checkpoint (lines 392-410). -/
def clearPass (cps : List CPDoc) (orderCheckpoint : Int) (now : Nat) : List CPDoc :=
  cps.map fun d => if cascadeEligible d orderCheckpoint then clearDoc d now else d

/-- Step 3, fault-free: propagate the out-status to every higher-order
checkpoint (lines 435-456). -/
def outPass (cps : List CPDoc) (checkpointId checkpointName status : String)
    (orderCheckpoint : Int) (note : Option String) (now : Nat) : List CPDoc :=
  cps.map fun d =>
    if cascadeEligible d orderCheckpoint
    then outDoc d checkpointId checkpointName status note now
    else d

/-- Steps 1-3 of the handler on the accepted path (lines 353-468): target
update, then the reinstatement pass when `last_status` is an out-status, then
the disqualification pass when `status` is an out-status.  Each pass streams
the collection after the previous writes, so the passes compose
sequentially. -/
def runStatusChange (cps : List CPDoc) (checkpointId : String) (orderCheckpoint : Int)
    (status lastStatus checkpointName : String) (note : Option String) (now : Nat) : List CPDoc :=
  let st1 := targetPass cps checkpointId checkpointName status note now
  let st2 := if lastStatus ∈ OUT_STATUSES then clearPass st1 orderCheckpoint now else st1
  if status ∈ OUT_STATUSES
  then outPass st2 checkpointId checkpointName status orderCheckpoint note now
  else st2

/-- Observable outcome of one handler invocation: HTTP status, the `success`
flag of the JSON body, and the resulting checkpoint subcollection. -/
structure ChangeResult where
  httpStatus : Nat
  success : Bool
  state : List CPDoc
deriving DecidableEq, Repr

/-- The handler `change_competitor_status` (lines 202-480) from the
`orderCheckpoint` validation onward, as a pure function of the competitor's
checkpoint subcollection.  `competitorExists` models the existence check of
the competitor document (line 285), which lives outside this subcollection.
Validation order follows the code: negative `orderCheckpoint` (line 205),
`status` (line 226) and `last_status` (line 244) against `VALID_STATUSES`,
competitor existence (404), checkpoint existence (404), then the stored-order
comparison (lines 329-351), which is skipped when the stored `order` field is
absent.  Every rejected request leaves the collection untouched. -/
def change_competitor_status (cps : List CPDoc) (competitorExists : Bool)
    (checkpointId : String) (orderCheckpoint : Int)
    (status lastStatus checkpointName : String)
    (note : Option String) (now : Nat) : ChangeResult :=
  if orderCheckpoint < 0 then ⟨400, false, cps⟩
  else if status ∉ VALID_STATUSES then ⟨400, false, cps⟩
  else if lastStatus ∉ VALID_STATUSES then ⟨400, false, cps⟩
  else if competitorExists = false then ⟨404, false, cps⟩
  else
    match cps.find? (fun d => d.id == checkpointId) with
    | none => ⟨404, false, cps⟩
    | some doc =>
      match doc.data.bind (fun dta => dta.order) with
      | some o =>
        if o ≠ orderCheckpoint then ⟨400, false, cps⟩
        else ⟨200, true, runStatusChange cps checkpointId orderCheckpoint status lastStatus checkpointName note now⟩
      | none => ⟨200, true, runStatusChange cps checkpointId orderCheckpoint status lastStatus checkpointName note now⟩

/-- The combined per-document effect of the three passes; `runStatusChange`
is the pointwise map of this function (proved below). -/
def docStep (checkpointId : String) (orderCheckpoint : Int)
    (status lastStatus checkpointName : String) (note : Option String) (now : Nat)
    (d : CPDoc) : CPDoc :=
  let d1 := if d.id == checkpointId
    then { d with data := some (applyTargetUpdate d.data checkpointId checkpointName status note now) }
    else d
  let d2 := if lastStatus ∈ OUT_STATUSES ∧ cascadeEligible d1 orderCheckpoint
    then clearDoc d1 now else d1
  if status ∈ OUT_STATUSES ∧ cascadeEligible d2 orderCheckpoint
  then outDoc d2 checkpointId checkpointName status note now
  else d2

/-! ### Fault-injected cascades (for the best-effort failure policy)

Each cascade pass is wrapped in one `try/except` around its whole `for` loop
(lines 386-422 and 428-468): a raising per-document write is caught at the
pass level, so the documents not yet reached by that pass keep their previous
state, while the handler proceeds to the next pass and still returns success.
`failing id = true` models `checkpoints_ref.document(id).update(...)` raising
for that document. -/

/-- One cascade `for` loop with fault injection, abstracted over the
per-document write `upd`.  The loop walks the streamed documents in order;
the first raising write escapes the loop to the pass-level `except`, leaving
this document and every later one untouched. -/
def cascadePassFaulty (upd : CPDoc → CPDoc) (failing : String → Bool) (orderCheckpoint : Int) :
    List CPDoc → List CPDoc
  | [] => []
  | d :: rest =>
    if cascadeEligible d orderCheckpoint then
      if failing d.id then d :: rest
      else upd d :: cascadePassFaulty upd failing orderCheckpoint rest
    else d :: cascadePassFaulty upd failing orderCheckpoint rest

def clearPassFaulty (failing : String → Bool) (orderCheckpoint : Int) (now : Nat)
    (cps : List CPDoc) : List CPDoc :=
  cascadePassFaulty (fun d => clearDoc d now) failing orderCheckpoint cps

def outPassFaulty (failing : String → Bool) (checkpointId checkpointName status : String)
    (orderCheckpoint : Int) (note : Option String) (now : Nat) (cps : List CPDoc) : List CPDoc :=
  cascadePassFaulty (fun d => outDoc d checkpointId checkpointName status note now)
    failing orderCheckpoint cps

/-- Steps 1-3 with fault injection in the cascade writes.  The claim under
test conditions on the target update succeeding, so only the cascade writes
can fail here. -/
def runStatusChangeFaulty (failing : String → Bool) (cps : List CPDoc)
    (checkpointId : String) (orderCheckpoint : Int)
    (status lastStatus checkpointName : String) (note : Option String) (now : Nat) : List CPDoc :=
  let st1 := targetPass cps checkpointId checkpointName status note now
  let st2 := if lastStatus ∈ OUT_STATUSES then clearPassFaulty failing orderCheckpoint now st1 else st1
  if status ∈ OUT_STATUSES
  then outPassFaulty failing checkpointId checkpointName status orderCheckpoint note now st2
  else st2

/-- The handler with fault injection in the cascade writes: the two `except`
blocks only log, so the control flow and the returned response are those of
the fault-free handler. -/
def change_competitor_status_faulty (failing : String → Bool) (cps : List CPDoc)
    (competitorExists : Bool) (checkpointId : String) (orderCheckpoint : Int)
    (status lastStatus checkpointName : String)
    (note : Option String) (now : Nat) : ChangeResult :=
  if orderCheckpoint < 0 then ⟨400, false, cps⟩
  else if status ∉ VALID_STATUSES then ⟨400, false, cps⟩
  else if lastStatus ∉ VALID_STATUSES then ⟨400, false, cps⟩
  else if competitorExists = false then ⟨404, false, cps⟩
  else
    match cps.find? (fun d => d.id == checkpointId) with
    | none => ⟨404, false, cps⟩
    | some doc =>
      match doc.data.bind (fun dta => dta.order) with
      | some o =>
        if o ≠ orderCheckpoint then ⟨400, false, cps⟩
        else ⟨200, true, runStatusChangeFaulty failing cps checkpointId orderCheckpoint status lastStatus checkpointName note now⟩
      | none => ⟨200, true, runStatusChangeFaulty failing cps checkpointId orderCheckpoint status lastStatus checkpointName note now⟩

/-- A cascade pass truncated after its first `n` documents: the pass applied
to the `take n` part, the remaining documents untouched.  An aborted faulty
pass is exactly such a truncation (proved below). -/
def clearPassUpTo (n : Nat) (cps : List CPDoc) (orderCheckpoint : Int) (now : Nat) : List CPDoc :=
  clearPass (cps.take n) orderCheckpoint now ++ cps.drop n

def outPassUpTo (n : Nat) (cps : List CPDoc) (checkpointId checkpointName status : String)
    (orderCheckpoint : Int) (note : Option String) (now : Nat) : List CPDoc :=
  outPass (cps.take n) checkpointId checkpointName status orderCheckpoint note now ++ cps.drop n

/-! ### Visibility filter (competitor_tracking.py lines 14-39) -/

/-- `is_competitor_visible`: an `out` competitor is visible everywhere, an
`outStart` competitor only at `start`/`finish` checkpoints, every other
status is always visible. -/
def is_competitor_visible (status checkpoint_type : String) : Bool :=
  if status == "out" then true
  else if status == "outStart" then checkpoint_type == "start" || checkpoint_type == "finish"
  else true

/-! ### Part 3a: the timestamp codec (track_competitor_position.py lines 74-81)

`_time_stamp_to_id` calls `datetime.strptime(ts.strip(), "%d/%m/%Y %H:%M:%S")`,
attaches UTC and returns `int(dt.timestamp())`, with any `ValueError` mapped
to 0.  The model below reproduces CPython's behaviour for this fixed format:
`_strptime` compiles `%d` to `3[01]|[12]\d|0[1-9]|[1-9]`, `%m` to
`1[0-2]|0[1-9]|[1-9]`, `%Y` to `\d\d\d\d`, `%H` to `2[0-3]|[0-1]\d|\d`,
`%M` to `[0-5]\d|\d`, `%S` to `6[01]|[0-5]\d|\d`, a blank to `\s+`, and
requires the whole string to be consumed; every numeric field is followed by
a non-digit delimiter, so each matches exactly a maximal digit run of
bounded length and value.  The `datetime` constructor then rejects year 0,
a day beyond the month length, and seconds 60/61.  Digit and whitespace classes are modelled
over ASCII; the `re` module's and `str.strip`'s Unicode extensions of `\d`
and `\s` are outside the embedding. -/

/-- ASCII whitespace of Python's `str.strip` and of the `\s` class. -/
def pyIsSpace (c : Char) : Bool :=
  c == ' ' || c == '\t' || c == '\n' || c == '\r' || c == '\x0b' || c == '\x0c'

def pyStrip (cs : List Char) : List Char :=
  ((cs.dropWhile pyIsSpace).reverse.dropWhile pyIsSpace).reverse

def digitVal (c : Char) : Nat := c.toNat - '0'.toNat

def natOfDigits (ds : List Char) : Nat := ds.foldl (fun a c => a * 10 + digitVal c) 0

/-- One numeric field: the maximal digit run, its value, its length, the rest. -/
def numField (cs : List Char) : Option (Nat × Nat × List Char) :=
  let ds := cs.takeWhile Char.isDigit
  if ds.length = 0 then none
  else some (natOfDigits ds, ds.length, cs.dropWhile Char.isDigit)

def expectChar (c : Char) : List Char → Option (List Char)
  | [] => none
  | x :: rest => if x = c then some rest else none

/-- `\s+`: at least one whitespace character. -/
def skipSpaces1 (cs : List Char) : Option (List Char) :=
  let rest := cs.dropWhile pyIsSpace
  if rest.length = cs.length then none else some rest

/-- `_strptime` matching of `"%d/%m/%Y %H:%M:%S"`; returns
`(day, month, year, hour, minute, second)`. -/
def strptimeDdMmYyyyHms (cs : List Char) : Option (Nat × Nat × Nat × Nat × Nat × Nat) :=
  match numField cs with
  | none => none
  | some (d, ld, cs) =>
    if ld > 2 ∨ d < 1 ∨ d > 31 then none else
    match expectChar '/' cs with
    | none => none
    | some cs =>
      match numField cs with
      | none => none
      | some (m, lm, cs) =>
        if lm > 2 ∨ m < 1 ∨ m > 12 then none else
        match expectChar '/' cs with
        | none => none
        | some cs =>
          match numField cs with
          | none => none
          | some (y, ly, cs) =>
            if ly ≠ 4 then none else
            match skipSpaces1 cs with
            | none => none
            | some cs =>
              match numField cs with
              | none => none
              | some (h, lh, cs) =>
                if lh > 2 ∨ h > 23 then none else
                match expectChar ':' cs with
                | none => none
                | some cs =>
                  match numField cs with
                  | none => none
                  | some (mi, lmi, cs) =>
                    if lmi > 2 ∨ mi > 59 then none else
                    match expectChar ':' cs with
                    | none => none
                    | some cs =>
                      match numField cs with
                      | none => none
                      | some (s, lsec, cs) =>
                        if lsec > 2 ∨ s > 61 then none else
                        match cs with
                        | [] => some (d, m, y, h, mi, s)
                        | _ => none

/-- Gregorian leap year (`calendar`/`datetime`). -/
def pyIsLeap (y : Nat) : Bool := (y % 4 == 0 && y % 100 != 0) || y % 400 == 0

/-- `datetime._DAYS_IN_MONTH` with the February leap adjustment. -/
def pyDaysInMonth (y m : Nat) : Nat :=
  if m = 2 then (if pyIsLeap y then 29 else 28)
  else if m = 4 ∨ m = 6 ∨ m = 9 ∨ m = 11 then 30
  else 31

/-- `datetime._days_before_month` (`_DAYS_BEFORE_MONTH` plus leap day). -/
def pyDaysBeforeMonth (y m : Nat) : Nat :=
  (match m with
   | 1 => 0 | 2 => 31 | 3 => 59 | 4 => 90 | 5 => 120 | 6 => 151
   | 7 => 181 | 8 => 212 | 9 => 243 | 10 => 273 | 11 => 304 | _ => 334)
  + (if 2 < m ∧ pyIsLeap y then 1 else 0)

/-- `datetime._days_before_year y = (y-1)*365 + (y-1)//4 - (y-1)//100 + (y-1)//400`
for `y ≥ 1` (`MINYEAR`). -/
def pyDaysBeforeYear (y : Nat) : Int :=
  ((y - 1) * 365 + (y - 1) / 4 + (y - 1) / 400 : Nat) - (((y - 1) / 100 : Nat) : Int)

/-- `datetime.date.toordinal`: day 1 = 0001-01-01. -/
def pyYmd2ord (y m d : Nat) : Int :=
  pyDaysBeforeYear y + pyDaysBeforeMonth y m + d

/-- `datetime(..., tzinfo=utc).timestamp()` as an integer;
`date(1970,1,1).toordinal() = 719163`. -/
def pyUtcTimestamp (y m d h mi s : Nat) : Int :=
  (pyYmd2ord y m d - 719163) * 86400 + h * 3600 + mi * 60 + s

/-- `_time_stamp_to_id` (lines 74-81). -/
def _time_stamp_to_id (ts : String) : Int :=
  match strptimeDdMmYyyyHms (pyStrip ts.data) with
  | none => 0
  | some (d, m, y, h, mi, s) =>
    if 1 ≤ y ∧ d ≤ pyDaysInMonth y m ∧ s ≤ 59 then pyUtcTimestamp y m d h mi s
    else 0

/-- Specification-side reading of "the Unix timestamp in seconds of that
date-time interpreted as UTC": proleptic-Gregorian days accumulated year by
year and month by month from 0001-01-01, taken relative to 1970-01-01. -/
def specDaysInYear (y : Nat) : Nat := if pyIsLeap y then 366 else 365

def specDaysFromCivil (y m d : Nat) : Nat :=
  (Finset.range (y - 1)).sum (fun i => specDaysInYear (i + 1)) +
  (Finset.range (m - 1)).sum (fun j => pyDaysInMonth y (j + 1)) + (d - 1)

def specUnixUtc (y m d h mi s : Nat) : Int :=
  86400 * ((specDaysFromCivil y m d : Int) - (specDaysFromCivil 1970 1 1 : Int)) +
    3600 * h + 60 * mi + s

/-- Zero-padded rendering of the exact format `DD/MM/YYYY HH:mm:ss`. -/
def fmt2 (n : Nat) : List Char := [Nat.digitChar (n / 10), Nat.digitChar (n % 10)]

def fmt4 (n : Nat) : List Char :=
  [Nat.digitChar (n / 1000), Nat.digitChar (n / 100 % 10),
   Nat.digitChar (n / 10 % 10), Nat.digitChar (n % 10)]

def fmtTimeStamp (y m d h mi s : Nat) : String :=
  ⟨fmt2 d ++ '/' :: fmt2 m ++ '/' :: fmt4 y ++ ' ' :: fmt2 h ++ ':' :: fmt2 mi ++ ':' :: fmt2 s⟩

/-- The strings `datetime.strptime` accepts for this format without a
`ValueError` (pattern match plus the `datetime` constructor's own checks). -/
def tsValid (ts : String) : Bool :=
  match strptimeDdMmYyyyHms (pyStrip ts.data) with
  | none => false
  | some (d, m, y, _, _, s) => decide (1 ≤ y ∧ d ≤ pyDaysInMonth y m ∧ s ≤ 59)

/-! ### Part 3b: the position history store (track_competitor_position.py lines 195-278) -/

def HISTORIAL_MAX_SIZE : Nat := 2000

/-- Numeric coordinates; Python floats are modelled exactly as rationals —
the handler only converts and stores them, no arithmetic is performed. -/
structure Coordinates where
  latitude : Rat
  longitude : Rat
deriving DecidableEq, Repr

structure TelemetryData where
  speed : String
  type : String
deriving DecidableEq, Repr

/-- One entry of the `historial` map (`_build_historial_value`, lines 95-113). -/
structure HistEntry where
  id : Int
  coordinates : Coordinates
  data : TelemetryData
  timeStamp : String
deriving DecidableEq, Repr

/-- The `historial` map: a Python dict in insertion order. -/
abbrev HistMap := List (String × HistEntry)

structure CurrentEntry where
  uuid : String
  latitude : Rat
  longitude : Rat
deriving DecidableEq, Repr

/-- Request body once `_validate_body`'s type checks (lines 42-71) are
expressed in the types: coordinates numeric, speed and type strings.  The
remaining data-dependent rejection is an empty `timeStamp`. -/
structure TrackBody where
  coordinates : Coordinates
  data : TelemetryData
  timeStamp : String
deriving DecidableEq, Repr

/-- State at `sport_monitor/tracking/{eventId}/{dayId}/{competitorId}`.
`historial = none` models an absent or non-dict node (the handler starts a
fresh map, line 225); the legacy list-shaped branch (lines 227-247) only
migrates pre-existing list data and is outside this embedding, which covers
map-shaped and absent history. -/
structure TrackState where
  current : Option CurrentEntry
  historial : Option HistMap
deriving DecidableEq, Repr

/-- `_rtdb_safe_key` (lines 28-33): replace every character of `. $ # [ ] /`
with an underscore. -/
def sanitizeChar (c : Char) : Char :=
  if c = '.' ∨ c = '$' ∨ c = '#' ∨ c = '[' ∨ c = ']' ∨ c = '/' then '_' else c

def _rtdb_safe_key (k : String) : String := ⟨k.data.map sanitizeChar⟩

/-- Python dict assignment `historial[key] = value` (line 250): overwrite in
place when the key exists, else append. -/
def dictInsert (m : HistMap) (k : String) (v : HistEntry) : HistMap :=
  if m.any (fun p => p.1 == k) then m.map (fun p => if p.1 == k then (k, v) else p)
  else m ++ [(k, v)]

/-- Eviction (lines 251-253): `sorted(historial.items(), key=λx: x[1].get("id", 0))`
is Python's stable ascending sort (every entry written by this handler has an
`id`); keep the last `HISTORIAL_MAX_SIZE` entries. -/
def evictHistorial (m : HistMap) : HistMap :=
  if HISTORIAL_MAX_SIZE < m.length
  then (m.mergeSort (fun a b => decide (a.2.id ≤ b.2.id))).drop (m.length - HISTORIAL_MAX_SIZE)
  else m

def _build_historial_value (idLong : Int) (c : Coordinates) (dt : TelemetryData)
    (ts : String) : HistEntry :=
  ⟨idLong, c, dt, ts⟩

/-- The handler (lines 195-278) after query-parameter extraction, for a
map-shaped or absent stored history: reject an empty `timeStamp` (400), else
overwrite `current`, insert the entry under the sanitized `uuid` (the
wall-clock milliseconds string, a parameter here), evict, persist both in
one write, and return 200. -/
def track_competitor_position (st : TrackState) (uuid : String) (body : TrackBody) :
    Nat × TrackState :=
  if body.timeStamp = "" then (400, st)
  else
    let current_entry : CurrentEntry :=
      ⟨uuid, body.coordinates.latitude, body.coordinates.longitude⟩
    let id_long := _time_stamp_to_id body.timeStamp
    let historial_value := _build_historial_value id_long body.coordinates body.data body.timeStamp
    let historial0 := st.historial.getD []
    let historial1 := dictInsert historial0 (_rtdb_safe_key uuid) historial_value
    (200, ⟨some current_entry, some (evictHistorial historial1)⟩)

/-- A stream of position updates applied in order from a starting state. -/
def foldTrack (samples : List (String × TrackBody)) (st : TrackState) : TrackState :=
  samples.foldl (fun s p => (track_competitor_position s p.1 p.2).2) st

/-- The map entry a sample produces. -/
def entryOf (p : String × TrackBody) : String × HistEntry :=
  (_rtdb_safe_key p.1,
    ⟨_time_stamp_to_id p.2.timeStamp, p.2.coordinates, p.2.data, p.2.timeStamp⟩)

def emptyTrackState : TrackState := ⟨none, none⟩

/-! ### Concrete telemetry inputs used to exercise the store -/

def exEntry : HistEntry := ⟨0, ⟨0, 0⟩, ⟨"", ""⟩, ""⟩

/-- Distinct map keys: the length-`i` string of `'a'`s. -/
def mkSampleKey (i : Nat) : String := ⟨List.replicate i 'a'⟩

/-- The `i`-th sample: timestamp `i` seconds into 2026-01-01 UTC. -/
def mkSampleBody (i : Nat) : TrackBody :=
  ⟨⟨0, 0⟩, ⟨"", ""⟩, fmtTimeStamp 2026 1 1 (i / 3600) (i / 60 % 60) (i % 60)⟩

def mkSamples (n : Nat) : List (String × TrackBody) :=
  (List.range n).map (fun i => (mkSampleKey i, mkSampleBody i))

/-! ### A concrete three-checkpoint scenario

Target checkpoint "a" (order 1) and the higher checkpoints "b" (order 2) and
"c" (order 3) of one competitor, all at status "none"; used to exercise the
handler and the fault-injected handler on concrete inputs. -/

def exDocA : CPDoc := ⟨"a", some ⟨some 1, some "none", none, none, none, none, none⟩⟩

def exDocB : CPDoc := ⟨"b", some ⟨some 2, some "none", none, none, none, none, none⟩⟩

def exDocC : CPDoc := ⟨"c", some ⟨some 3, some "none", none, none, none, none, none⟩⟩

def exDocs : List CPDoc := [exDocA, exDocB, exDocC]

/-- Fault model: the per-document cascade write raises exactly for document "b". -/
def exFailB : String → Bool := fun s => s == "b"

/-! ## Theorems -/

/-! ### Structural lemmas for the status-change handler -/

theorem runStatusChange_eq_map (cps : List CPDoc) (cid : String) (k : Int)
    (st ls name : String) (note : Option String) (now : Nat) :
    runStatusChange cps cid k st ls name note now =
      cps.map (docStep cid k st ls name note now) := by
  unfold runStatusChange docStep clearPass outPass targetPass
  by_cases hls : ls ∈ OUT_STATUSES <;> by_cases hst : st ∈ OUT_STATUSES <;>
    simp [hls, hst, List.map_map, Function.comp_def]

theorem docStep_id (cid : String) (k : Int) (st ls name : String) (note : Option String)
    (now : Nat) (d : CPDoc) : (docStep cid k st ls name note now d).id = d.id := by
  dsimp only [docStep, clearDoc, outDoc]
  split_ifs <;> rfl

theorem docStep_order (cid : String) (k : Int) (st ls name : String) (note : Option String)
    (now : Nat) (d : CPDoc) :
    (docStep cid k st ls name note now d).data.bind (fun dta => dta.order) =
      d.data.bind (fun dta => dta.order) := by
  rcases d with ⟨i, _ | dta⟩ <;>
    · dsimp only [docStep, clearDoc, outDoc, applyTargetUpdate, applyClearUpdate, applyOutUpdate]
      split_ifs <;> simp_all [emptyCPData]

theorem docStep_idem (cid : String) (k : Int) (st ls name : String) (note : Option String)
    (now : Nat) (d : CPDoc) :
    docStep cid k st ls name note now (docStep cid k st ls name note now d) =
      docStep cid k st ls name note now d := by
  rcases d with ⟨i, dta⟩
  by_cases hid : i = cid <;> by_cases hls : ls ∈ OUT_STATUSES <;> by_cases hst : st ∈ OUT_STATUSES
  all_goals (
    rcases dta with _ | ⟨_ | o, sc, cd, cdn, pt, ua, nt⟩ <;>
    rcases note with _ | n <;>
    first
      | (by_cases hko : k < o <;>
          simp [docStep, clearDoc, outDoc, applyTargetUpdate, applyClearUpdate,
            applyOutUpdate, cascadeEligible, emptyCPData, hid, hls, hst, hko])
      | simp [docStep, clearDoc, outDoc, applyTargetUpdate, applyClearUpdate,
          applyOutUpdate, cascadeEligible, emptyCPData, hid, hls, hst])

theorem find?_comp_docStep (cid : String) (k : Int) (st ls name : String)
    (note : Option String) (now : Nat) (l : List CPDoc) :
    l.find? ((fun d => d.id == cid) ∘ docStep cid k st ls name note now)
      = l.find? (fun d => d.id == cid) := by
  have hp : ((fun d : CPDoc => d.id == cid) ∘ docStep cid k st ls name note now)
      = (fun d : CPDoc => d.id == cid) := by
    funext d
    simp [Function.comp, docStep_id]
  rw [hp]

theorem map_comp_docStep_idem (cid : String) (k : Int) (st ls name : String)
    (note : Option String) (now : Nat) (l : List CPDoc) :
    l.map (docStep cid k st ls name note now ∘ docStep cid k st ls name note now)
      = l.map (docStep cid k st ls name note now) := by
  apply List.map_congr_left
  intro d _
  exact docStep_idem cid k st ls name note now d

/-- **C6** Idempotence: with a fixed argument tuple and a fixed notion of the
current time (`now`), invoking the status-change operation twice in
succession yields the same final checkpoint-record state as invoking it
once.  No hypotheses: rejected calls leave the state unchanged and are
rejected identically the second time, and the accepted path's per-document
transformation is idempotent. -/
theorem c6_status_change_idempotent (cps : List CPDoc) (ce : Bool) (cid : String)
    (k : Int) (st ls name : String) (note : Option String) (now : Nat) :
    (change_competitor_status
        (change_competitor_status cps ce cid k st ls name note now).state
        ce cid k st ls name note now).state
      = (change_competitor_status cps ce cid k st ls name note now).state := by
  unfold change_competitor_status
  by_cases h1 : k < 0
  · simp [h1]
  by_cases h2 : st ∈ VALID_STATUSES
  swap
  · simp [h1, h2]
  by_cases h3 : ls ∈ VALID_STATUSES
  swap
  · simp [h1, h2, h3]
  by_cases h4 : ce = false
  · simp [h1, h2, h3, h4]
  simp only [h1, h2, h3, h4, if_false, if_true, not_true_eq_false, not_false_eq_true]
  rcases hfind : cps.find? (fun d => d.id == cid) with _ | doc
  · simp [hfind]
  rcases hord : doc.data.bind (fun dta => dta.order) with _ | o
  · simp [hfind, hord, runStatusChange_eq_map, find?_comp_docStep, docStep_order,
      map_comp_docStep_idem]
  by_cases ho : o ≠ k
  · simp [hfind, hord, ho]
  · simp [hfind, hord, ho, runStatusChange_eq_map, find?_comp_docStep, docStep_order,
      map_comp_docStep_idem]

theorem out_subset_valid {s : String} (hs : s ∈ OUT_STATUSES) : s ∈ VALID_STATUSES := by
  simp only [OUT_STATUSES, List.mem_cons, List.not_mem_nil, or_false] at hs
  rcases hs with rfl | rfl | rfl <;> decide

theorem change_accepts (cps : List CPDoc) (ce : Bool) (cid : String) (k : Int)
    (st ls name : String) (note : Option String) (now : Nat) (t : CPDoc)
    (hk : ¬ k < 0) (hs : st ∈ VALID_STATUSES) (hls : ls ∈ VALID_STATUSES) (hce : ce = true)
    (hfind : cps.find? (fun d => d.id == cid) = some t)
    (hord : t.data.bind (fun dta => dta.order) = some k) :
    change_competitor_status cps ce cid k st ls name note now =
      ⟨200, true, cps.map (docStep cid k st ls name note now)⟩ := by
  unfold change_competitor_status
  simp [hk, hs, hls, hce, hfind, hord, runStatusChange_eq_map]

/-- **C1** Disqualification cascade: on a checkpoint-record list with distinct
integer orders, a status change to an out-status at the checkpoint of order
`k` succeeds (HTTP 200, success), sets every record of order `> k` to
`statusCompetitor = newStatus` with `checkpointDisable` the target's id and
`checkpointDisableName` the supplied name, and leaves every record of order
`≤ k` other than the target itself completely unchanged. -/
theorem c1_disqualification_cascade
    (cps : List CPDoc) (ce : Bool) (cid : String) (k : Int)
    (st ls name : String) (note : Option String) (now : Nat) (t : CPDoc)
    (_hall : ∀ d ∈ cps, ∃ dta o, d.data = some dta ∧ dta.order = some o)
    (_hdist : cps.Pairwise
      (fun d e => d.data.bind (fun dta => dta.order) ≠ e.data.bind (fun dta => dta.order)))
    (hk : ¬ k < 0) (hst : st ∈ OUT_STATUSES) (hls : ls ∈ VALID_STATUSES) (hce : ce = true)
    (hfind : cps.find? (fun d => d.id == cid) = some t)
    (hord : t.data.bind (fun dta => dta.order) = some k) :
    (change_competitor_status cps ce cid k st ls name note now).httpStatus = 200 ∧
    (change_competitor_status cps ce cid k st ls name note now).success = true ∧
    ∀ (i : Nat) (d : CPDoc), cps[i]? = some d →
      (∀ (dta : CPData) (o : Int), d.data = some dta → dta.order = some o → k < o →
        ∃ dta2 : CPData, (change_competitor_status cps ce cid k st ls name note now).state[i]? =
            some ⟨d.id, some dta2⟩ ∧
          dta2.statusCompetitor = some st ∧
          dta2.checkpointDisable = some cid ∧
          dta2.checkpointDisableName = some name) ∧
      (∀ (dta : CPData) (o : Int), d.data = some dta → dta.order = some o → o ≤ k → d.id ≠ cid →
        (change_competitor_status cps ce cid k st ls name note now).state[i]? = some d) := by
  rw [change_accepts cps ce cid k st ls name note now t hk (out_subset_valid hst) hls hce hfind hord]
  refine ⟨rfl, rfl, ?_⟩
  intro i d hd
  constructor
  · intro dta o hdta horder hko
    by_cases hid : d.id = cid <;> by_cases hlso : ls ∈ OUT_STATUSES <;>
      simp [docStep, clearDoc, outDoc, applyTargetUpdate, applyClearUpdate, applyOutUpdate,
        cascadeEligible, hd, hdta, horder, hko, hid, hlso, hst]
  · intro dta o hdta horder hok hid
    have hko : ¬ (k < o) := not_lt.mpr hok
    simp [docStep, cascadeEligible, hd, hdta, horder, hko, hid]

/-- **C2** Reinstatement cascade: when the previous status
(`lastStatusCompetitor`) is an out-status and the new status is not, the call
succeeds, every record of order `> k` is reset to `statusCompetitor = "none"`
with `checkpointDisable` and `checkpointDisableName` cleared, and the target
checkpoint itself takes the new status. -/
theorem c2_reinstatement_cascade
    (cps : List CPDoc) (ce : Bool) (cid : String) (k : Int)
    (st ls name : String) (note : Option String) (now : Nat) (t : CPDoc)
    (hk : ¬ k < 0) (hls : ls ∈ OUT_STATUSES) (hstv : st ∈ VALID_STATUSES)
    (hst : st ∉ OUT_STATUSES) (hce : ce = true)
    (hfind : cps.find? (fun d => d.id == cid) = some t)
    (hord : t.data.bind (fun dta => dta.order) = some k) :
    (change_competitor_status cps ce cid k st ls name note now).httpStatus = 200 ∧
    (change_competitor_status cps ce cid k st ls name note now).success = true ∧
    ∀ (i : Nat) (d : CPDoc), cps[i]? = some d →
      (∀ (dta : CPData) (o : Int), d.data = some dta → dta.order = some o → k < o →
        ∃ dta2 : CPData, (change_competitor_status cps ce cid k st ls name note now).state[i]? =
            some ⟨d.id, some dta2⟩ ∧
          dta2.statusCompetitor = some "none" ∧
          dta2.checkpointDisable = none ∧
          dta2.checkpointDisableName = none) ∧
      (∀ dta : CPData, d.data = some dta → dta.order = some k → d.id = cid →
        ∃ dta2 : CPData, (change_competitor_status cps ce cid k st ls name note now).state[i]? =
            some ⟨d.id, some dta2⟩ ∧
          dta2.statusCompetitor = some st ∧
          dta2.checkpointDisable = none ∧
          dta2.checkpointDisableName = none) := by
  rw [change_accepts cps ce cid k st ls name note now t hk hstv (out_subset_valid hls) hce hfind hord]
  refine ⟨rfl, rfl, ?_⟩
  intro i d hd
  constructor
  · intro dta o hdta horder hko
    by_cases hid : d.id = cid <;>
      simp [docStep, clearDoc, outDoc, applyTargetUpdate, applyClearUpdate, applyOutUpdate,
        cascadeEligible, hd, hdta, horder, hko, hid, hls, hst]
  · intro dta hdta horder hid
    have hkk : ¬ (k < k) := lt_irrefl k
    simp [docStep, clearDoc, outDoc, applyTargetUpdate, applyClearUpdate, applyOutUpdate,
      cascadeEligible, hd, hdta, horder, hkk, hid, hls, hst]

/-- **C4** Order-mismatch precondition: when the stored checkpoint order is
present and differs from the caller-supplied `orderCheckpoint`, an otherwise
well-formed call is rejected with HTTP 400 (`success = false`) and no
checkpoint record of the competitor changes. -/
theorem c4_order_mismatch_rejected
    (cps : List CPDoc) (ce : Bool) (cid : String) (k : Int)
    (st ls name : String) (note : Option String) (now : Nat) (t : CPDoc) (o : Int)
    (hk : ¬ k < 0) (hstv : st ∈ VALID_STATUSES) (hlsv : ls ∈ VALID_STATUSES) (hce : ce = true)
    (hfind : cps.find? (fun d => d.id == cid) = some t)
    (hord : t.data.bind (fun dta => dta.order) = some o) (hne : o ≠ k) :
    change_competitor_status cps ce cid k st ls name note now = ⟨400, false, cps⟩ := by
  unfold change_competitor_status
  simp [hk, hstv, hlsv, hce, hfind, hord, hne]

theorem docStep_lastStatus_irrel (cid : String) (k : Int) (st ls ls2 name : String)
    (note : Option String) (now : Nat)
    (hst : st ∈ OUT_STATUSES) (hls : ls ∈ OUT_STATUSES) (hls2 : ls2 ∉ OUT_STATUSES)
    (d : CPDoc) :
    docStep cid k st ls name note now d = docStep cid k st ls2 name note now d := by
  rcases d with ⟨i, dta⟩
  by_cases hid : i = cid <;>
    rcases dta with _ | ⟨_ | o, sc, cd, cdn, pt, ua, nt⟩ <;>
    rcases note with _ | n <;>
    first
      | (by_cases hko : k < o <;>
          simp [docStep, clearDoc, outDoc, applyTargetUpdate, applyClearUpdate,
            applyOutUpdate, cascadeEligible, emptyCPData, hid, hst, hls, hls2, hko])
      | simp [docStep, clearDoc, outDoc, applyTargetUpdate, applyClearUpdate,
          applyOutUpdate, cascadeEligible, emptyCPData, hid, hst, hls, hls2]

theorem change_lastStatus_irrel (cps : List CPDoc) (ce : Bool) (cid : String) (k : Int)
    (st ls ls2 name : String) (note : Option String) (now : Nat)
    (hst : st ∈ OUT_STATUSES) (hls : ls ∈ OUT_STATUSES)
    (hls2v : ls2 ∈ VALID_STATUSES) (hls2 : ls2 ∉ OUT_STATUSES) :
    change_competitor_status cps ce cid k st ls name note now =
      change_competitor_status cps ce cid k st ls2 name note now := by
  have hstv := out_subset_valid hst
  have hlsv := out_subset_valid hls
  have hmap : ∀ l : List CPDoc,
      l.map (docStep cid k st ls name note now) = l.map (docStep cid k st ls2 name note now) :=
    fun l => List.map_congr_left
      (fun d _ => docStep_lastStatus_irrel cid k st ls ls2 name note now hst hls hls2 d)
  unfold change_competitor_status
  by_cases hk : k < 0
  · simp [hk]
  by_cases hcef : ce = false
  · simp [hk, hcef, hstv, hlsv, hls2v]
  simp only [hk, hcef, hstv, hlsv, hls2v, if_true, if_false, not_true_eq_false,
    not_false_eq_true, ite_true, ite_false, eq_self_iff_true]
  rcases hfind : cps.find? (fun d => d.id == cid) with _ | t
  · simp [hfind]
  rcases hord2 : t.data.bind (fun dta => dta.order) with _ | o2
  · simp [hfind, hord2, runStatusChange_eq_map, hmap]
  by_cases ho2 : o2 ≠ k
  · simp [hfind, hord2, ho2]
  · simp [hfind, hord2, ho2, runStatusChange_eq_map, hmap]

/-- **C5** Cascade composition: when both the previous and the new status are
out-statuses, both cascades run and the resulting state of every checkpoint
with order greater than the target's equals the state produced by the
disqualification cascade alone, i.e. by the same call with a previous status
outside the out-family — the reinstatement reset is overwritten and the net
effect is determined solely by `newStatus`. -/
theorem c5_cascade_composition
    (cps : List CPDoc) (ce : Bool) (cid : String) (k : Int)
    (st ls ls2 name : String) (note : Option String) (now : Nat)
    (hst : st ∈ OUT_STATUSES) (hls : ls ∈ OUT_STATUSES)
    (hls2v : ls2 ∈ VALID_STATUSES) (hls2 : ls2 ∉ OUT_STATUSES) :
    ∀ (i : Nat) (d : CPDoc) (dta : CPData) (o : Int),
      cps[i]? = some d → d.data = some dta → dta.order = some o → k < o →
      (change_competitor_status cps ce cid k st ls name note now).state[i]? =
        (change_competitor_status cps ce cid k st ls2 name note now).state[i]? := by
  intro i d dta o hd hdta horder hko
  rw [change_lastStatus_irrel cps ce cid k st ls ls2 name note now hst hls hls2v hls2]

/-- **C10** Cascade frame condition on malformed records: in both cascade
passes, a streamed document whose `to_dict()` is `None` or whose `order`
field is absent is never written, and neither is any document whose order is
not strictly greater than the supplied `orderCheckpoint`; all such documents
are left unchanged by both passes. -/
theorem c10_cascade_frame_malformed
    (cps : List CPDoc) (k : Int) (now : Nat) (cid name st : String) (note : Option String) :
    ∀ (i : Nat) (d : CPDoc), cps[i]? = some d →
      (∀ dta : CPData, d.data = some dta → ∀ o : Int, dta.order = some o → o ≤ k) →
      (clearPass cps k now)[i]? = some d ∧
      (outPass cps cid name st k note now)[i]? = some d := by
  intro i d hd hframe
  have helig : cascadeEligible d k = false := by
    rcases d with ⟨di, _ | dta⟩
    · rfl
    rcases hdo : dta.order with _ | o
    · simp [cascadeEligible, hdo]
    · have := hframe dta rfl o hdo
      simp only [cascadeEligible, hdo, decide_eq_false_iff_not]
      omega
  simp [clearPass, outPass, List.getElem?_map, hd, helig]

theorem cascadePassFaulty_no_fail (upd : CPDoc → CPDoc) (failing : String → Bool) (k : Int)
    (hf : ∀ s, failing s = false) :
    ∀ l : List CPDoc, cascadePassFaulty upd failing k l =
      l.map (fun d => if cascadeEligible d k then upd d else d) := by
  intro l
  induction l with
  | nil => rfl
  | cons d rest ih =>
    by_cases he : cascadeEligible d k <;>
      simp [cascadePassFaulty, he, hf, ih]

theorem cascadePassFaulty_upTo (upd : CPDoc → CPDoc) (failing : String → Bool) (k : Int) :
    ∀ l : List CPDoc, ∃ n : Nat, cascadePassFaulty upd failing k l =
      (l.take n).map (fun d => if cascadeEligible d k then upd d else d) ++ l.drop n := by
  intro l
  induction l with
  | nil => exact ⟨0, rfl⟩
  | cons d rest ih =>
    obtain ⟨n, hn⟩ := ih
    by_cases he : cascadeEligible d k
    · by_cases hf : failing d.id
      · exact ⟨0, by simp [cascadePassFaulty, he, hf]⟩
      · exact ⟨n + 1, by simp [cascadePassFaulty, he, hf, hn]⟩
    · exact ⟨n + 1, by simp [cascadePassFaulty, he, hn]⟩

theorem cascadePassFaulty_preserves_ineligible (upd : CPDoc → CPDoc) (failing : String → Bool)
    (k : Int) :
    ∀ (l : List CPDoc) (i : Nat) (d : CPDoc), l[i]? = some d → cascadeEligible d k = false →
      (cascadePassFaulty upd failing k l)[i]? = some d := by
  intro l
  induction l with
  | nil => intro i d h; simp at h
  | cons e rest ih =>
    intro i d hd he
    rcases i with _ | i
    · simp only [List.getElem?_cons_zero, Option.some_inj] at hd
      subst hd
      simp [cascadePassFaulty, he]
    · simp only [List.getElem?_cons_succ] at hd
      have hih := ih i d hd he
      by_cases he2 : cascadeEligible e k <;> by_cases hf : failing e.id <;>
        simp [cascadePassFaulty, he2, hf, hd, hih]

theorem change_faulty_accepts (failing : String → Bool) (cps : List CPDoc) (ce : Bool)
    (cid : String) (k : Int) (st ls name : String) (note : Option String) (now : Nat) (t : CPDoc)
    (hk : ¬ k < 0) (hs : st ∈ VALID_STATUSES) (hls : ls ∈ VALID_STATUSES) (hce : ce = true)
    (hfind : cps.find? (fun d => d.id == cid) = some t)
    (hord : t.data.bind (fun dta => dta.order) = some k) :
    change_competitor_status_faulty failing cps ce cid k st ls name note now =
      ⟨200, true, runStatusChangeFaulty failing cps cid k st ls name note now⟩ := by
  unfold change_competitor_status_faulty
  simp [hk, hs, hls, hce, hfind, hord]

theorem runStatusChangeFaulty_no_fail (failing : String → Bool) (hf : ∀ s, failing s = false)
    (cps : List CPDoc) (cid : String) (k : Int) (st ls name : String)
    (note : Option String) (now : Nat) :
    runStatusChangeFaulty failing cps cid k st ls name note now =
      runStatusChange cps cid k st ls name note now := by
  unfold runStatusChangeFaulty runStatusChange clearPassFaulty outPassFaulty
  by_cases hlso : ls ∈ OUT_STATUSES <;> by_cases hsto : st ∈ OUT_STATUSES <;>
    simp [hlso, hsto, cascadePassFaulty_no_fail _ _ _ hf, clearPass, outPass]

/-- **C3** (amended) Best-effort cascade failure policy, as the code
implements it: once the target checkpoint update succeeds, a failing
cascade-step write is caught at the pass level, the call still returns
HTTP 200 with `success = true`, nothing is rolled back — the target
checkpoint keeps its update and each cascade pass leaves every document at
either its cascaded or its pre-pass value (it equals a truncation of the
fault-free pass: updates applied up to the first failing write, the rest of
that pass skipped) — the other cascade pass still runs on the result, and
with no failing write the outcome is exactly the fault-free operation.
The claim as frozen additionally asserts that the steps of the same pass
after a failing write are still executed; that part is refuted by
`c3_counterexample_same_pass_aborted`. -/
theorem c3_amended_best_effort_cascade
    (failing : String → Bool) (cps : List CPDoc) (ce : Bool) (cid : String) (k : Int)
    (st ls name : String) (note : Option String) (now : Nat) (t : CPDoc)
    (hk : ¬ k < 0) (hstv : st ∈ VALID_STATUSES) (hlsv : ls ∈ VALID_STATUSES) (hce : ce = true)
    (hfind : cps.find? (fun d => d.id == cid) = some t)
    (hord : t.data.bind (fun dta => dta.order) = some k) :
    (change_competitor_status_faulty failing cps ce cid k st ls name note now).httpStatus = 200 ∧
    (change_competitor_status_faulty failing cps ce cid k st ls name note now).success = true ∧
    (∀ (i : Nat) (d : CPDoc), cps[i]? = some d → d.id = cid →
      d.data.bind (fun dta => dta.order) = some k →
      (change_competitor_status_faulty failing cps ce cid k st ls name note now).state[i]? =
        some ⟨d.id, some (applyTargetUpdate d.data cid name st note now)⟩) ∧
    (∃ n2 n3 : Nat,
      (change_competitor_status_faulty failing cps ce cid k st ls name note now).state =
        outPassUpTo n3 (clearPassUpTo n2 (targetPass cps cid name st note now) k now)
          cid name st k note now) ∧
    ((∀ s, failing s = false) →
      change_competitor_status_faulty failing cps ce cid k st ls name note now =
        change_competitor_status cps ce cid k st ls name note now) := by
  rw [change_faulty_accepts failing cps ce cid k st ls name note now t hk hstv hlsv hce hfind hord]
  refine ⟨rfl, rfl, ?_, ?_, ?_⟩
  · intro i d hd hid hords
    have h1 : (targetPass cps cid name st note now)[i]? =
        some ⟨d.id, some (applyTargetUpdate d.data cid name st note now)⟩ := by
      simp [targetPass, List.getElem?_map, hd, hid]
    have helig : cascadeEligible ⟨d.id, some (applyTargetUpdate d.data cid name st note now)⟩ k
        = false := by
      rcases hdd : d.data with _ | dta
      · rw [hdd] at hords; simp at hords
      · rw [hdd] at hords
        simp only [Option.some_bind] at hords
        simp [cascadeEligible, applyTargetUpdate, hords]
    unfold runStatusChangeFaulty
    by_cases hlso : ls ∈ OUT_STATUSES
    · have h2 := cascadePassFaulty_preserves_ineligible (fun d => clearDoc d now) failing k
        (targetPass cps cid name st note now) i _ h1 helig
      by_cases hsto : st ∈ OUT_STATUSES
      · have h3 := cascadePassFaulty_preserves_ineligible
          (fun d => outDoc d cid name st note now) failing k
          (cascadePassFaulty (fun d => clearDoc d now) failing k (targetPass cps cid name st note now))
          i _ h2 helig
        simpa [hlso, hsto, clearPassFaulty, outPassFaulty] using h3
      · simpa [hlso, hsto, clearPassFaulty] using h2
    · by_cases hsto : st ∈ OUT_STATUSES
      · have h3 := cascadePassFaulty_preserves_ineligible
          (fun d => outDoc d cid name st note now) failing k
          (targetPass cps cid name st note now) i _ h1 helig
        simpa [hlso, hsto, outPassFaulty] using h3
      · simpa [hlso, hsto] using h1
  · unfold runStatusChangeFaulty
    by_cases hlso : ls ∈ OUT_STATUSES <;> by_cases hsto : st ∈ OUT_STATUSES
    · obtain ⟨n2, hn2⟩ := cascadePassFaulty_upTo (fun d => clearDoc d now) failing k
        (targetPass cps cid name st note now)
      have e2 : clearPassFaulty failing k now (targetPass cps cid name st note now) =
          clearPassUpTo n2 (targetPass cps cid name st note now) k now := by
        simpa [clearPassFaulty, clearPassUpTo, clearPass] using hn2
      obtain ⟨n3, hn3⟩ := cascadePassFaulty_upTo (fun d => outDoc d cid name st note now) failing k
        (clearPassUpTo n2 (targetPass cps cid name st note now) k now)
      refine ⟨n2, n3, ?_⟩
      simp only [hlso, hsto, if_true, clearPassFaulty]
      rw [show cascadePassFaulty (fun d => clearDoc d now) failing k (targetPass cps cid name st note now)
        = clearPassUpTo n2 (targetPass cps cid name st note now) k now from e2]
      simpa [outPassFaulty, outPassUpTo, outPass] using hn3
    · obtain ⟨n2, hn2⟩ := cascadePassFaulty_upTo (fun d => clearDoc d now) failing k
        (targetPass cps cid name st note now)
      refine ⟨n2, 0, ?_⟩
      simp only [hlso, hsto, if_true, if_false, clearPassFaulty]
      simpa [clearPassUpTo, clearPass, outPassUpTo, outPass] using hn2
    · obtain ⟨n3, hn3⟩ := cascadePassFaulty_upTo (fun d => outDoc d cid name st note now) failing k
        (targetPass cps cid name st note now)
      refine ⟨0, n3, ?_⟩
      simp only [hlso, hsto, if_true, if_false, outPassFaulty]
      simpa [clearPassUpTo, clearPass, outPassUpTo, outPass] using hn3
    · exact ⟨0, 0, by simp [hlso, hsto, clearPassUpTo, outPassUpTo, clearPass, outPass]⟩
  · intro hf
    rw [runStatusChangeFaulty_no_fail failing hf,
      change_accepts cps ce cid k st ls name note now t hk hstv hlsv hce hfind hord,
      runStatusChange_eq_map]

/-- **C3** (counterexample to the claim as frozen): disqualify at "a"
(order 1, `newStatus = "out"`, previous status "none"); the cascade write to
"b" raises and "c" has not been written yet.  The exception is caught at the
pass level, so the loop over the remaining documents is abandoned: "c" keeps
status "none" (the fault-free run sets it to "out"), although the failing
write concerned only "b".  The call still returns HTTP 200 with success, so
the claim's "does not abort ... the subsequent cascade steps" is false while
its other conjuncts hold. -/
theorem c3_counterexample_same_pass_aborted :
    (change_competitor_status_faulty exFailB exDocs true "a" 1 "out" "none" "A" none 0).httpStatus = 200 ∧
    (change_competitor_status_faulty exFailB exDocs true "a" 1 "out" "none" "A" none 0).success = true ∧
    exFailB "c" = false ∧
    (change_competitor_status_faulty exFailB exDocs true "a" 1 "out" "none" "A" none 0).state[2]?
      = some exDocC ∧
    (change_competitor_status exDocs true "a" 1 "out" "none" "A" none 0).state[2]?
      = some ⟨"c", some ⟨some 3, some "out", some "a", some "A", none, some 0, none⟩⟩ := by
  decide

theorem c3_amended_witness :
    (change_competitor_status_faulty exFailB exDocs true "a" 1 "out" "none" "A" none 0).httpStatus
      = 200 :=
  (c3_amended_best_effort_cascade exFailB exDocs true "a" 1 "out" "none" "A" none 0 exDocA
    (by decide) (by decide) (by decide) rfl (by decide) (by decide)).1

/-- **C7** Visibility filter truth table: `"out"` is visible at every
checkpoint type; `"outStart"` is visible exactly at `"start"` and `"finish"`
(in particular not at `"pass"`); every other status (including `"outLast"`,
`"check"`, `"none"`) is visible everywhere. -/
theorem c7_visibility_truth_table :
    ∀ t : String, is_competitor_visible "out" t = true ∧
      (is_competitor_visible "outStart" t = true ↔ (t = "start" ∨ t = "finish")) ∧
      ∀ s : String, s ≠ "out" → s ≠ "outStart" → is_competitor_visible s t = true := by
  intro t
  refine ⟨rfl, ?_, ?_⟩
  · unfold is_competitor_visible
    simp
  · intro s h1 h2
    unfold is_competitor_visible
    simp [h1, h2]

theorem c7_witness :
    is_competitor_visible "out" "pass" = true ∧
    (is_competitor_visible "outStart" "pass" = true ↔ ("pass" = "start" ∨ "pass" = "finish")) ∧
    is_competitor_visible "check" "timer" = true ∧
    is_competitor_visible "outLast" "pass" = true :=
  ⟨(c7_visibility_truth_table "pass").1, (c7_visibility_truth_table "pass").2.1,
    (c7_visibility_truth_table "timer").2.2 "check" (by decide) (by decide),
    (c7_visibility_truth_table "pass").2.2 "outLast" (by decide) (by decide)⟩

theorem c1_witness :
    (change_competitor_status exDocs true "a" 1 "out" "none" "A" none 0).httpStatus = 200 :=
  (c1_disqualification_cascade exDocs true "a" 1 "out" "none" "A" none 0 exDocA
    (by
      intro d hd
      simp only [exDocs, List.mem_cons, List.not_mem_nil, or_false] at hd
      rcases hd with rfl | rfl | rfl
      · exact ⟨_, 1, rfl, rfl⟩
      · exact ⟨_, 2, rfl, rfl⟩
      · exact ⟨_, 3, rfl, rfl⟩)
    (by decide) (by decide) (by decide) (by decide) rfl (by decide) (by decide)).1

theorem c2_witness :
    (change_competitor_status exDocs true "a" 1 "check" "out" "A" none 0).httpStatus = 200 :=
  (c2_reinstatement_cascade exDocs true "a" 1 "check" "out" "A" none 0 exDocA
    (by decide) (by decide) (by decide) (by decide) rfl (by decide) (by decide)).1

theorem c4_witness :
    change_competitor_status exDocs true "a" 2 "check" "none" "A" none 0 = ⟨400, false, exDocs⟩ :=
  c4_order_mismatch_rejected exDocs true "a" 2 "check" "none" "A" none 0 exDocA 1
    (by decide) (by decide) (by decide) rfl (by decide) (by decide) (by decide)

theorem c5_witness :
    (change_competitor_status exDocs true "a" 1 "out" "outStart" "A" none 0).state[2]? =
      (change_competitor_status exDocs true "a" 1 "out" "none" "A" none 0).state[2]? :=
  c5_cascade_composition exDocs true "a" 1 "out" "outStart" "none" "A" none 0
    (by decide) (by decide) (by decide) (by decide) 2 exDocC
    ⟨some 3, some "none", none, none, none, none, none⟩ 3 (by decide) rfl rfl (by decide)

theorem c10_witness :
    (clearPass exDocs 5 0)[0]? = some exDocA ∧
    (outPass exDocs "a" "A" "out" 5 none 0)[0]? = some exDocA :=
  c10_cascade_frame_malformed exDocs 5 0 "a" "A" "out" none 0 exDocA (by decide)
    (by
      intro dta hdta o ho
      have hdta2 : dta = ⟨some 1, some "none", none, none, none, none, none⟩ := by
        simpa [exDocA, eq_comm] using hdta
      subst hdta2
      have h1 : some (1 : Int) = some o := ho
      have h2 : (1 : Int) = o := by simpa using h1
      omega)

/-! ### Codec lemmas: parsing the exactly-formatted string -/

theorem digitChar_facts : ∀ x : Nat, x < 10 →
    (Nat.digitChar x).isDigit = true ∧ pyIsSpace (Nat.digitChar x) = false ∧
    digitVal (Nat.digitChar x) = x := by
  decide

theorem natOfDigits_fmt2 {n : Nat} (h : n < 100) : natOfDigits (fmt2 n) = n := by
  have h1 := (digitChar_facts (n / 10) (by omega)).2.2
  have h2 := (digitChar_facts (n % 10) (by omega)).2.2
  simp [natOfDigits, fmt2, h1, h2]
  omega

theorem natOfDigits_fmt4 {n : Nat} (h : n < 10000) : natOfDigits (fmt4 n) = n := by
  have h1 := (digitChar_facts (n / 1000) (by omega)).2.2
  have h2 := (digitChar_facts (n / 100 % 10) (by omega)).2.2
  have h3 := (digitChar_facts (n / 10 % 10) (by omega)).2.2
  have h4 := (digitChar_facts (n % 10) (by omega)).2.2
  simp [natOfDigits, fmt4, h1, h2, h3, h4]
  omega

theorem numField_fmt2 {n : Nat} (h : n < 100) (c : Char) (hc : c.isDigit = false)
    (rest : List Char) :
    numField (fmt2 n ++ c :: rest) = some (n, 2, c :: rest) := by
  have h1 := (digitChar_facts (n / 10) (by omega)).1
  have h2 := (digitChar_facts (n % 10) (by omega)).1
  simp [numField, fmt2, List.takeWhile_cons, List.dropWhile_cons, h1, h2, hc]
  exact natOfDigits_fmt2 h

theorem numField_fmt2_nil {n : Nat} (h : n < 100) :
    numField (fmt2 n) = some (n, 2, []) := by
  have h1 := (digitChar_facts (n / 10) (by omega)).1
  have h2 := (digitChar_facts (n % 10) (by omega)).1
  simp [numField, fmt2, List.takeWhile_cons, List.dropWhile_cons, h1, h2]
  exact natOfDigits_fmt2 h

theorem numField_fmt4 {n : Nat} (h : n < 10000) (c : Char) (hc : c.isDigit = false)
    (rest : List Char) :
    numField (fmt4 n ++ c :: rest) = some (n, 4, c :: rest) := by
  have h1 := (digitChar_facts (n / 1000) (by omega)).1
  have h2 := (digitChar_facts (n / 100 % 10) (by omega)).1
  have h3 := (digitChar_facts (n / 10 % 10) (by omega)).1
  have h4 := (digitChar_facts (n % 10) (by omega)).1
  simp [numField, fmt4, List.takeWhile_cons, List.dropWhile_cons, h1, h2, h3, h4, hc]
  exact natOfDigits_fmt4 h

theorem skipSpaces1_space (xs : List Char) (hx : xs.dropWhile pyIsSpace = xs) :
    skipSpaces1 (' ' :: xs) = some xs := by
  have hs : pyIsSpace ' ' = true := by decide
  simp only [skipSpaces1, List.dropWhile_cons, hs, if_true, hx]
  have : ¬ (xs.length = (' ' :: xs).length) := by simp
  simp [this]

theorem dropWhile_fmt2 {n : Nat} (h : n < 100) (rest : List Char) :
    (fmt2 n ++ rest).dropWhile pyIsSpace = fmt2 n ++ rest := by
  have h1 := (digitChar_facts (n / 10) (by omega)).2.1
  simp [fmt2, List.dropWhile_cons, h1]

theorem strptime_fmt {y m d h mi s : Nat}
    (hy1 : 1 ≤ y) (hy : y ≤ 9999) (hm1 : 1 ≤ m) (hm : m ≤ 12)
    (hd1 : 1 ≤ d) (hd : d ≤ 31) (hh : h ≤ 23) (hmi : mi ≤ 59) (hs : s ≤ 59) :
    strptimeDdMmYyyyHms (fmtTimeStamp y m d h mi s).data = some (d, m, y, h, mi, s) := by
  show strptimeDdMmYyyyHms
      (fmt2 d ++ '/' :: fmt2 m ++ '/' :: fmt4 y ++ ' ' :: fmt2 h ++ ':' :: fmt2 mi ++ ':' :: fmt2 s)
    = some (d, m, y, h, mi, s)
  have e1 := numField_fmt2 (show d < 100 by omega) '/' (by decide)
    (fmt2 m ++ '/' :: fmt4 y ++ ' ' :: fmt2 h ++ ':' :: fmt2 mi ++ ':' :: fmt2 s)
  have e2 := numField_fmt2 (show m < 100 by omega) '/' (by decide)
    (fmt4 y ++ ' ' :: fmt2 h ++ ':' :: fmt2 mi ++ ':' :: fmt2 s)
  have e3 := numField_fmt4 (show y < 10000 by omega) ' ' (by decide)
    (fmt2 h ++ ':' :: fmt2 mi ++ ':' :: fmt2 s)
  have e4 : skipSpaces1 (' ' :: (fmt2 h ++ ':' :: fmt2 mi ++ ':' :: fmt2 s)) =
      some (fmt2 h ++ ':' :: fmt2 mi ++ ':' :: fmt2 s) :=
    skipSpaces1_space _ (dropWhile_fmt2 (show h < 100 by omega) _)
  have e5 := numField_fmt2 (show h < 100 by omega) ':' (by decide) (fmt2 mi ++ ':' :: fmt2 s)
  have e6 := numField_fmt2 (show mi < 100 by omega) ':' (by decide) (fmt2 s)
  have e7 := numField_fmt2_nil (show s < 100 by omega)
  have c1 : ¬ ((2:Nat) < 2 ∨ d = 0 ∨ 31 < d) := by omega
  have c2 : ¬ ((2:Nat) < 2 ∨ m = 0 ∨ 12 < m) := by omega
  have c4 : ¬ ((2:Nat) < 2 ∨ 23 < h) := by omega
  have c5 : ¬ ((2:Nat) < 2 ∨ 59 < mi) := by omega
  have c6 : ¬ ((2:Nat) < 2 ∨ 61 < s) := by omega
  simp only [List.cons_append, List.append_assoc] at e1 e2 e3 e4 e5 e6 e7
  simp [strptimeDdMmYyyyHms, e1, e2, e3, e4, e5, e6, e7, expectChar, c1, c2, c4, c5, c6]
  omega

theorem pyDaysInMonth_le_31 (y m : Nat) : pyDaysInMonth y m ≤ 31 := by
  unfold pyDaysInMonth
  split_ifs <;> omega

theorem tsid_fmt {y m d h mi s : Nat}
    (hy1 : 1 ≤ y) (hy : y ≤ 9999) (hm1 : 1 ≤ m) (hm : m ≤ 12)
    (hd1 : 1 ≤ d) (hd : d ≤ pyDaysInMonth y m) (hh : h ≤ 23) (hmi : mi ≤ 59) (hs : s ≤ 59) :
    _time_stamp_to_id (fmtTimeStamp y m d h mi s) = pyUtcTimestamp y m d h mi s := by
  have hd31 : d ≤ 31 := le_trans hd (pyDaysInMonth_le_31 y m)
  have hstrip : pyStrip (fmtTimeStamp y m d h mi s).data = (fmtTimeStamp y m d h mi s).data := by
    have f1 := (digitChar_facts (d / 10) (by omega)).2.1
    have f2 := (digitChar_facts (s % 10) (by omega)).2.1
    simp [fmtTimeStamp, fmt2, fmt4, pyStrip, List.dropWhile_cons, f1, f2]
  unfold _time_stamp_to_id
  rw [hstrip, strptime_fmt hy1 hy hm1 hm hd1 hd31 hh hmi hs]
  simp [hy1, hd, hs]

/-! ### Codec lemmas: the closed-form ordinal equals the accumulated day count -/

theorem pyIsLeap_iff (y : Nat) :
    pyIsLeap y = true ↔ ((4 ∣ y ∧ ¬ (100 ∣ y)) ∨ 400 ∣ y) := by
  simp [pyIsLeap, Nat.dvd_iff_mod_eq_zero]

theorem daysBeforeYear_sum_nat (n : Nat) :
    n * 365 + n / 4 + n / 400 =
      (Finset.range n).sum (fun i => specDaysInYear (i + 1)) + n / 100 := by
  induction n with
  | zero => simp
  | succ n ih =>
    rw [Finset.sum_range_succ]
    have s4 := Nat.succ_div n 4
    have s100 := Nat.succ_div n 100
    have s400 := Nat.succ_div n 400
    have hleap : specDaysInYear (n + 1) =
        if ((4 ∣ (n + 1) ∧ ¬ (100 ∣ (n + 1))) ∨ 400 ∣ (n + 1)) then 366 else 365 := by
      unfold specDaysInYear
      by_cases hl : pyIsLeap (n + 1)
      · rw [if_pos hl, if_pos ((pyIsLeap_iff (n + 1)).mp hl)]
      · rw [if_neg hl, if_neg (fun hc => hl ((pyIsLeap_iff (n + 1)).mpr hc))]
    by_cases h4 : 4 ∣ (n + 1) <;> by_cases h100 : 100 ∣ (n + 1) <;>
      by_cases h400 : 400 ∣ (n + 1) <;>
      simp only [h4, h100, h400, if_true, if_false, and_true, and_false, true_and,
        false_and, not_true_eq_false, not_false_eq_true, or_true, or_false, true_or,
        false_or, if_neg, if_pos] at s4 s100 s400 hleap <;>
      omega

theorem daysBeforeMonth_sum (y m : Nat) (h1 : 1 ≤ m) (h12 : m ≤ 12) :
    pyDaysBeforeMonth y m = (Finset.range (m - 1)).sum (fun j => pyDaysInMonth y (j + 1)) := by
  interval_cases m <;> by_cases hl : pyIsLeap y <;>
    simp [pyDaysBeforeMonth, pyDaysInMonth, hl, Finset.sum_range_succ]

theorem pyDaysBeforeYear_eq_sum (y : Nat) :
    pyDaysBeforeYear y = ((Finset.range (y - 1)).sum (fun i => specDaysInYear (i + 1)) : Int) := by
  unfold pyDaysBeforeYear
  have h := daysBeforeYear_sum_nat (y - 1)
  have hI : (((y - 1) * 365 + (y - 1) / 4 + (y - 1) / 400 : Nat) : Int) =
      (((Finset.range (y - 1)).sum (fun i => specDaysInYear (i + 1)) + (y - 1) / 100 : Nat) : Int) :=
    Nat.cast_inj.mpr h
  push_cast at hI ⊢
  omega

theorem specDaysFromCivil_epoch : specDaysFromCivil 1970 1 1 = 719162 := by
  have h := daysBeforeYear_sum_nat 1969
  unfold specDaysFromCivil
  simp only [show (1970 : Nat) - 1 = 1969 from rfl]
  simp
  omega

theorem pyUtcTimestamp_eq_specUnixUtc (y m d h mi s : Nat)
    (_hy1 : 1 ≤ y) (hm1 : 1 ≤ m) (hm12 : m ≤ 12) (hd1 : 1 ≤ d) :
    pyUtcTimestamp y m d h mi s = specUnixUtc y m d h mi s := by
  simp only [specUnixUtc, specDaysFromCivil_epoch]
  unfold pyUtcTimestamp pyYmd2ord specDaysFromCivil
  rw [pyDaysBeforeYear_eq_sum y, daysBeforeMonth_sum y m hm1 hm12]
  push_cast
  omega

theorem tsid_zero_of_invalid (ts : String) (h : tsValid ts = false) :
    _time_stamp_to_id ts = 0 := by
  unfold tsValid at h
  unfold _time_stamp_to_id
  rcases hp : strptimeDdMmYyyyHms (pyStrip ts.data) with _ | p
  · simp
  · rw [hp] at h
    obtain ⟨d, m, y, hh, mi, s⟩ := p
    simp only [decide_eq_false_iff_not] at h
    simp [h]

theorem mem_dictInsert (m : HistMap) (k : String) (v : HistEntry) :
    (k, v) ∈ dictInsert m k v := by
  by_cases h : m.any (fun p => p.1 == k)
  · obtain ⟨p, hpm, hpk⟩ := List.any_eq_true.mp h
    simp only [dictInsert, h, if_true]
    exact List.mem_map.mpr ⟨p, hpm, by simp [hpk]⟩
  · simp [dictInsert, h]

theorem evict_of_le (m : HistMap) (h : m.length ≤ HISTORIAL_MAX_SIZE) :
    evictHistorial m = m := by
  unfold evictHistorial
  rw [if_neg]
  omega

/-- **C9** Timestamp codec: (1) for every string in the exact zero-padded
format `DD/MM/YYYY HH:mm:ss` denoting a calendar-valid date-time, the codec
returns the Unix timestamp in seconds of that date-time interpreted as UTC
(`specUnixUtc`, the accumulated proleptic-Gregorian day count relative to
1970-01-01 — hence the id increases strictly with the represented instant);
(2) for every string the parser rejects the codec returns 0; and (3) such a
sample is still recorded: the call succeeds and, whenever the insertion does
not overflow the bound, the entry is present in the stored history with
id 0. -/
theorem c9_timestamp_codec :
    (∀ y m d h mi s : Nat,
      1 ≤ y → y ≤ 9999 → 1 ≤ m → m ≤ 12 → 1 ≤ d → d ≤ pyDaysInMonth y m →
      h ≤ 23 → mi ≤ 59 → s ≤ 59 →
      _time_stamp_to_id (fmtTimeStamp y m d h mi s) = specUnixUtc y m d h mi s) ∧
    (∀ ts : String, tsValid ts = false → _time_stamp_to_id ts = 0) ∧
    (∀ (st : TrackState) (uuid : String) (body : TrackBody),
      tsValid body.timeStamp = false → body.timeStamp ≠ "" →
      (track_competitor_position st uuid body).1 = 200 ∧
      ∃ hm : HistMap, (track_competitor_position st uuid body).2.historial = some hm ∧
        ((dictInsert (st.historial.getD []) (_rtdb_safe_key uuid)
            ⟨0, body.coordinates, body.data, body.timeStamp⟩).length ≤ HISTORIAL_MAX_SIZE →
          (_rtdb_safe_key uuid, (⟨0, body.coordinates, body.data, body.timeStamp⟩ : HistEntry)) ∈ hm)) := by
  refine ⟨?_, ?_, ?_⟩
  · intro y m d h mi s hy1 hy hm1 hm12 hd1 hd hh hmi hs
    rw [tsid_fmt hy1 hy hm1 hm12 hd1 hd hh hmi hs]
    exact pyUtcTimestamp_eq_specUnixUtc y m d h mi s hy1 hm1 hm12 hd1
  · exact tsid_zero_of_invalid
  · intro st uuid body hval hne
    have h0 : _time_stamp_to_id body.timeStamp = 0 := tsid_zero_of_invalid _ hval
    unfold track_competitor_position
    rw [if_neg hne]
    refine ⟨rfl, evictHistorial (dictInsert (st.historial.getD []) (_rtdb_safe_key uuid)
      (_build_historial_value (_time_stamp_to_id body.timeStamp) body.coordinates body.data
        body.timeStamp)), rfl, ?_⟩
    intro hlen
    rw [h0]
    rw [evict_of_le _ (by simpa [_build_historial_value] using hlen)]
    simpa [_build_historial_value] using
      mem_dictInsert (st.historial.getD []) (_rtdb_safe_key uuid)
        ⟨0, body.coordinates, body.data, body.timeStamp⟩

theorem c9_witness :
    _time_stamp_to_id (fmtTimeStamp 2026 10 12 13 45 30) = specUnixUtc 2026 10 12 13 45 30 ∧
    _time_stamp_to_id "not a timestamp" = 0 :=
  ⟨c9_timestamp_codec.1 2026 10 12 13 45 30 (by decide) (by decide) (by decide) (by decide)
      (by decide) (by decide) (by decide) (by decide) (by decide),
    c9_timestamp_codec.2.1 "not a timestamp" (by decide)⟩

/-! ### Eviction lemmas -/

theorem evictLe_trans : ∀ a b c : String × HistEntry,
    decide (a.2.id ≤ b.2.id) → decide (b.2.id ≤ c.2.id) → decide (a.2.id ≤ c.2.id) := by
  intro a b c hab hbc
  simp only [decide_eq_true_eq] at hab hbc ⊢
  exact le_trans hab hbc

theorem evictLe_total : ∀ a b : String × HistEntry,
    decide (a.2.id ≤ b.2.id) || decide (b.2.id ≤ a.2.id) := by
  intro a b
  simpa using le_total a.2.id b.2.id

theorem evict_general (m : HistMap) (h : HISTORIAL_MAX_SIZE < m.length) :
    (evictHistorial m).length = HISTORIAL_MAX_SIZE ∧
    ∃ dropped : HistMap, dropped.length = m.length - HISTORIAL_MAX_SIZE ∧
      (dropped ++ evictHistorial m).Perm m ∧
      ∀ a ∈ dropped, ∀ b ∈ evictHistorial m, a.2.id ≤ b.2.id := by
  have hsorted := List.sorted_mergeSort evictLe_trans evictLe_total m
  have hperm := List.mergeSort_perm m (fun a b => decide (a.2.id ≤ b.2.id))
  have hlen : (m.mergeSort (fun a b => decide (a.2.id ≤ b.2.id))).length = m.length :=
    hperm.length_eq
  have hev : evictHistorial m =
      (m.mergeSort (fun a b => decide (a.2.id ≤ b.2.id))).drop (m.length - HISTORIAL_MAX_SIZE) := by
    unfold evictHistorial
    rw [if_pos h]
  constructor
  · rw [hev, List.length_drop, hlen]
    omega
  · refine ⟨(m.mergeSort (fun a b => decide (a.2.id ≤ b.2.id))).take (m.length - HISTORIAL_MAX_SIZE),
      ?_, ?_, ?_⟩
    · rw [List.length_take, hlen]
      omega
    · rw [hev, List.take_append_drop]
      exact hperm
    · intro a ha b hb
      rw [hev] at hb
      have := (List.pairwise_append.mp
        (by rw [List.take_append_drop]; exact hsorted)).2.2 a ha b hb
      simpa using this

theorem dictInsert_fresh (m : HistMap) (k : String) (v : HistEntry)
    (h : ∀ p ∈ m, p.1 ≠ k) : dictInsert m k v = m ++ [(k, v)] := by
  have hany : m.any (fun p => p.1 == k) = false := by
    rw [List.any_eq_false]
    intro p hp
    simpa using h p hp
  simp [dictInsert, hany]

theorem foldTrack_append_singleton (l : List (String × TrackBody)) (x : String × TrackBody)
    (st : TrackState) :
    foldTrack (l ++ [x]) st = (track_competitor_position (foldTrack l st) x.1 x.2).2 := by
  simp [foldTrack, List.foldl_append]

theorem foldTrack_suffix (samples : List (String × TrackBody)) :
    (samples.map (fun p => _rtdb_safe_key p.1)).Nodup →
    samples.Pairwise
      (fun p q => _time_stamp_to_id p.2.timeStamp < _time_stamp_to_id q.2.timeStamp) →
    (∀ p ∈ samples, p.2.timeStamp ≠ "") →
    (foldTrack samples emptyTrackState).historial.getD []
        = (samples.map entryOf).drop (samples.length - HISTORIAL_MAX_SIZE) ∧
      (samples = [] ∨ (foldTrack samples emptyTrackState).historial
        = some ((samples.map entryOf).drop (samples.length - HISTORIAL_MAX_SIZE))) := by
  induction samples using List.reverseRecOn with
  | nil => intro _ _ _; exact ⟨rfl, Or.inl rfl⟩
  | append_singleton l x ih =>
    intro hkeys hids hne
    have hmax : HISTORIAL_MAX_SIZE = 2000 := rfl
    rw [List.map_append, List.map_singleton] at hkeys
    rw [List.pairwise_append] at hids
    have hkl := hkeys.of_append_left
    have hkx : _rtdb_safe_key x.1 ∉ l.map (fun p => _rtdb_safe_key p.1) := by
      intro hmem
      have hdisj := List.disjoint_of_nodup_append hkeys
      exact hdisj hmem (by simp)
    have hidl := hids.1
    have hcross : ∀ p ∈ l,
        _time_stamp_to_id p.2.timeStamp < _time_stamp_to_id x.2.timeStamp := by
      intro p hp
      exact hids.2.2 p hp x (by simp)
    have hnel : ∀ p ∈ l, p.2.timeStamp ≠ "" := fun p hp => hne p (List.mem_append_left _ hp)
    have hnex : x.2.timeStamp ≠ "" := hne x (List.mem_append_right _ (by simp))
    obtain ⟨ihE, _⟩ := ih hkl hidl hnel
    rw [foldTrack_append_singleton]
    unfold track_competitor_position
    rw [if_neg hnex]
    simp only []
    -- the inserted pair is exactly `entryOf x`
    have hfresh : ∀ p ∈ (foldTrack l emptyTrackState).historial.getD [], p.1 ≠ _rtdb_safe_key x.1 := by
      intro p hp
      rw [ihE] at hp
      have hp2 : p ∈ l.map entryOf := List.drop_subset _ _ hp
      obtain ⟨q, hq, rfl⟩ := List.mem_map.mp hp2
      intro heq
      exact hkx (List.mem_map.mpr ⟨q, hq, heq⟩)
    rw [show _build_historial_value (_time_stamp_to_id x.2.timeStamp) x.2.coordinates x.2.data
        x.2.timeStamp = (entryOf x).2 from rfl]
    rw [show _rtdb_safe_key x.1 = (entryOf x).1 from rfl] at hfresh ⊢
    rw [dictInsert_fresh _ _ _ hfresh, ihE]
    -- the resulting pre-eviction map
    by_cases hlen : l.length < HISTORIAL_MAX_SIZE
    · have h0 : l.length - HISTORIAL_MAX_SIZE = 0 := by omega
      have h0' : (l.length + 1) - HISTORIAL_MAX_SIZE = 0 := by omega
      rw [h0, List.drop_zero]
      rw [evict_of_le _ (by simp; omega)]
      constructor
      · simp [h0']
      · right
        simp [h0']
    · -- the map has 2001 entries and is sorted by id; eviction drops the head
      have hElen : ((l.map entryOf).drop (l.length - HISTORIAL_MAX_SIZE)).length
          = HISTORIAL_MAX_SIZE := by
        rw [List.length_drop, List.length_map]
        omega
      have hmapPW : (l.map entryOf).Pairwise
          (fun a b : String × HistEntry => a.2.id < b.2.id) := by
        rw [List.pairwise_map]
        exact hidl
      have hEPW : ((l.map entryOf).drop (l.length - HISTORIAL_MAX_SIZE)).Pairwise
          (fun a b : String × HistEntry => a.2.id < b.2.id) :=
        List.Pairwise.sublist
          (List.drop_sublist (l.length - HISTORIAL_MAX_SIZE) (l.map entryOf)) hmapPW
      have hcrossE : ∀ a ∈ (l.map entryOf).drop (l.length - HISTORIAL_MAX_SIZE),
          a.2.id < (entryOf x).2.id := by
        intro a ha
        obtain ⟨q, hq, rfl⟩ := List.mem_map.mp (List.drop_subset _ _ ha)
        exact hcross q hq
      have hsortm1 : ((l.map entryOf).drop (l.length - HISTORIAL_MAX_SIZE) ++ [entryOf x]).Pairwise
          (fun a b : String × HistEntry => decide (a.2.id ≤ b.2.id) = true) := by
        rw [List.pairwise_append]
        refine ⟨hEPW.imp (fun hab => by simpa using le_of_lt hab), by simp, ?_⟩
        intro a ha b hb
        rw [List.mem_singleton] at hb
        subst hb
        simpa using le_of_lt (hcrossE a ha)
      have hm1len : (((l.map entryOf).drop (l.length - HISTORIAL_MAX_SIZE)) ++ [entryOf x]).length
          = HISTORIAL_MAX_SIZE + 1 := by
        simp [hElen]
      have hev : evictHistorial
          (((l.map entryOf).drop (l.length - HISTORIAL_MAX_SIZE)) ++ [entryOf x])
          = (((l.map entryOf).drop (l.length - HISTORIAL_MAX_SIZE)) ++ [entryOf x]).drop 1 := by
        unfold evictHistorial
        rw [if_pos (by omega), List.mergeSort_of_sorted hsortm1, hm1len]
        simp
      rw [hev]
      have harith : (l.length + 1) - HISTORIAL_MAX_SIZE = (l.length - HISTORIAL_MAX_SIZE) + 1 := by
        omega
      have hgoal : (((l.map entryOf).drop (l.length - HISTORIAL_MAX_SIZE)) ++ [entryOf x]).drop 1
          = ((l ++ [x]).map entryOf).drop ((l ++ [x]).length - HISTORIAL_MAX_SIZE) := by
        rw [List.map_append, List.map_singleton, List.length_append, List.length_singleton,
          harith]
        rw [List.drop_append_of_le_length (by simp; omega)]
        rw [List.drop_append_of_le_length (by simp; omega)]
        rw [List.drop_drop]
      rw [hgoal]
      exact ⟨by simp, Or.inr (by simp)⟩

/-- **C8** Eviction retained-set semantics.  General law: whenever the map
exceeds `HISTORIAL_MAX_SIZE` (2000) entries after an insertion, the handler
keeps exactly 2000 entries — the last 2000 of the stable ascending sort by
numeric id: the kept entries are a permutation-complement of the dropped
ones, there are exactly `length - 2000` dropped entries, and every dropped
entry's id is `≤` every retained entry's id.  Scenario: recording 2001
samples with strictly increasing ids (fresh distinct map keys) from an empty
history leaves exactly 2000 entries, with the first (smallest-id) sample
absent and the second present. -/
theorem c8_eviction_retained_set :
    (∀ m : HistMap, HISTORIAL_MAX_SIZE < m.length →
      (evictHistorial m).length = HISTORIAL_MAX_SIZE ∧
      ∃ dropped : HistMap, dropped.length = m.length - HISTORIAL_MAX_SIZE ∧
        (dropped ++ evictHistorial m).Perm m ∧
        ∀ a ∈ dropped, ∀ b ∈ evictHistorial m, a.2.id ≤ b.2.id) ∧
    (∀ samples : List (String × TrackBody),
      samples.length = HISTORIAL_MAX_SIZE + 1 →
      (samples.map (fun p => _rtdb_safe_key p.1)).Nodup →
      samples.Pairwise
        (fun p q => _time_stamp_to_id p.2.timeStamp < _time_stamp_to_id q.2.timeStamp) →
      (∀ p ∈ samples, p.2.timeStamp ≠ "") →
      ∃ hm : HistMap,
        (foldTrack samples emptyTrackState).historial = some hm ∧
        hm.length = HISTORIAL_MAX_SIZE ∧
        (∀ p, samples[0]? = some p → ∀ e : HistEntry, (_rtdb_safe_key p.1, e) ∉ hm) ∧
        (∀ p, samples[1]? = some p → entryOf p ∈ hm)) := by
  constructor
  · exact evict_general
  · intro samples hlen hkeys hids hne
    have hmax : HISTORIAL_MAX_SIZE = 2000 := rfl
    obtain ⟨-, hsome⟩ := foldTrack_suffix samples hkeys hids hne
    rcases hsome with rfl | hsome
    · rw [List.length_nil] at hlen
      omega
    have hdrop1 : samples.length - HISTORIAL_MAX_SIZE = 1 := by omega
    rw [hdrop1] at hsome
    refine ⟨_, hsome, ?_, ?_, ?_⟩
    · rw [List.length_drop, List.length_map]
      omega
    · intro p hp0 e hmem
      rcases samples with _ | ⟨a, rest⟩
      · simp at hp0
      simp only [List.getElem?_cons_zero, Option.some_inj] at hp0
      subst hp0
      rw [List.map_cons, List.drop_succ_cons, List.drop_zero] at hmem
      rw [List.map_cons] at hkeys
      have hkx : _rtdb_safe_key a.1 ∉ rest.map (fun q => _rtdb_safe_key q.1) :=
        (List.nodup_cons.mp hkeys).1
      apply hkx
      obtain ⟨q, hq, heq⟩ := List.mem_map.mp hmem
      have : _rtdb_safe_key q.1 = _rtdb_safe_key a.1 := congrArg Prod.fst heq
      exact List.mem_map.mpr ⟨q, hq, this⟩
    · intro p hp1
      rcases samples with _ | ⟨a, _ | ⟨b, rest⟩⟩
      · simp at hp1
      · simp at hp1
      simp only [List.getElem?_cons_succ, List.getElem?_cons_zero, Option.some_inj] at hp1
      subst hp1
      rw [List.map_cons, List.map_cons, List.drop_succ_cons, List.drop_zero]
      exact List.mem_cons_self _ _

theorem sanitize_mkSampleKey (i : Nat) : _rtdb_safe_key (mkSampleKey i) = mkSampleKey i := by
  unfold _rtdb_safe_key mkSampleKey
  simp [List.map_replicate]
  rfl

theorem mkSampleKey_inj : Function.Injective mkSampleKey := by
  intro i j h
  have := congrArg (fun s : String => s.data.length) h
  simpa [mkSampleKey] using this

theorem mkSamples_keys_nodup (n : Nat) :
    ((mkSamples n).map (fun p => _rtdb_safe_key p.1)).Nodup := by
  unfold mkSamples
  rw [List.map_map]
  have : ((fun p : String × TrackBody => _rtdb_safe_key p.1) ∘
      (fun i => (mkSampleKey i, mkSampleBody i))) = mkSampleKey := by
    funext i
    simp [Function.comp, sanitize_mkSampleKey]
  rw [this]
  exact (List.nodup_range n).map mkSampleKey_inj

theorem mkSampleBody_id (i : Nat) (hi : i < 86400) :
    _time_stamp_to_id (mkSampleBody i).timeStamp =
      pyUtcTimestamp 2026 1 1 (i / 3600) (i / 60 % 60) (i % 60) := by
  unfold mkSampleBody
  exact tsid_fmt (by omega) (by omega) (by omega) (by omega) (by omega) (by decide)
    (by omega) (by omega) (by omega)

theorem mkSampleBody_id_lt {i j : Nat} (hij : i < j) (hj : j < 86400) :
    _time_stamp_to_id (mkSampleBody i).timeStamp <
      _time_stamp_to_id (mkSampleBody j).timeStamp := by
  rw [mkSampleBody_id i (by omega), mkSampleBody_id j hj]
  unfold pyUtcTimestamp
  omega

theorem mkSamples_ids_pairwise (n : Nat) (hn : n ≤ 86400) :
    (mkSamples n).Pairwise
      (fun p q => _time_stamp_to_id p.2.timeStamp < _time_stamp_to_id q.2.timeStamp) := by
  unfold mkSamples
  rw [List.pairwise_map]
  refine (List.pairwise_lt_range n).imp_of_mem ?_
  intro i j hi hj hij
  exact mkSampleBody_id_lt hij (lt_of_lt_of_le (List.mem_range.mp hj) hn)

theorem fmtTimeStamp_ne_empty (y m d h mi s : Nat) : fmtTimeStamp y m d h mi s ≠ "" := by
  intro h0
  have := congrArg String.data h0
  simp [fmtTimeStamp, fmt2] at this

theorem mkSamples_ts_ne (n : Nat) : ∀ p ∈ mkSamples n, p.2.timeStamp ≠ "" := by
  intro p hp
  unfold mkSamples at hp
  obtain ⟨i, -, rfl⟩ := List.mem_map.mp hp
  exact fmtTimeStamp_ne_empty 2026 1 1 (i / 3600) (i / 60 % 60) (i % 60)

theorem c8_witness :
    ((HISTORIAL_MAX_SIZE < (List.replicate (HISTORIAL_MAX_SIZE + 1) ("k", exEntry)).length) ∧
      (evictHistorial (List.replicate (HISTORIAL_MAX_SIZE + 1) ("k", exEntry))).length
        = HISTORIAL_MAX_SIZE) ∧
    ((mkSamples (HISTORIAL_MAX_SIZE + 1)).length = HISTORIAL_MAX_SIZE + 1 ∧
      ∃ hm : HistMap,
        (foldTrack (mkSamples (HISTORIAL_MAX_SIZE + 1)) emptyTrackState).historial = some hm ∧
        hm.length = HISTORIAL_MAX_SIZE) := by
  constructor
  · refine ⟨by simp, ?_⟩
    exact (c8_eviction_retained_set.1 (List.replicate (HISTORIAL_MAX_SIZE + 1) ("k", exEntry))
      (by simp)).1
  · refine ⟨by simp [mkSamples], ?_⟩
    obtain ⟨hm, h1, h2, -, -⟩ := c8_eviction_retained_set.2 (mkSamples (HISTORIAL_MAX_SIZE + 1))
      (by simp [mkSamples]) (mkSamples_keys_nodup _)
      (mkSamples_ids_pairwise _ (by norm_num [HISTORIAL_MAX_SIZE])) (mkSamples_ts_ne _)
    exact ⟨hm, h1, h2⟩
